import Mathlib

/-!
Verification of the fractal store of `prototypes/federation-rust`
(`src/models.rs`, `src/storage.rs`).

The Rust store (`FractalStorage`) is embedded shallowly:

* `HashMap<K, V>` becomes an insertion-ordered association list
  (`AssocMap`); `insert` replaces the value of an existing key in place,
  `values` iterates in insertion order, matching the specification's
  "first stored contribution" reading of `HashMap::values().find`.
* `&mut self` methods become functions returning the updated state.
* `chrono::Utc::now()` becomes an explicit `now : Nat` argument.
* `Result<T>` / `Result<(), String>` become `Except String T`.
* `f64` fields that are only carried around (never computed on in the
  verified paths) are kept as `Float`.
* SHA-256 (the `sha2` crate) is implemented from its standard definition,
  with the round constants derived from the fractional parts of the cube
  roots of the first 64 primes and the initial state from the square
  roots of the first 8 primes, and digests are hex-encoded lowercase as
  `hex::encode` does.
-/

/-! ## Context taxonomy (`models.rs`) -/

inductive FlowState where
  | Solid
  | Liquid
  | Gas
  | Plasma
  | Colloidal
  | Crystalline
  | Living
  | Wave
deriving DecidableEq, Repr

inductive EvolutionStage where
  | Potential
  | Emerging
  | Mature
  | Transforming
  | Transcending
deriving DecidableEq, Repr

inductive ScientificContext where
  | Empirical
  | Theoretical
  | Experimental
deriving DecidableEq, Repr

inductive SymbolicContext where
  | Archetypal
  | Cultural
  | Personal
deriving DecidableEq, Repr

inductive WaterContext where
  | Phase
  | Flow
  | Coherence
deriving DecidableEq, Repr

inductive ContextType where
  | Scientific (c : ScientificContext)
  | Symbolic (c : SymbolicContext)
  | Water (c : WaterContext)
  | Hybrid (cs : List ContextType)
deriving Repr

mutual

def ContextType.beq : ContextType → ContextType → Bool
  | .Scientific a, .Scientific b => a == b
  | .Symbolic a, .Symbolic b => a == b
  | .Water a, .Water b => a == b
  | .Hybrid as, .Hybrid bs => ContextType.beqList as bs
  | _, _ => false

def ContextType.beqList : List ContextType → List ContextType → Bool
  | [], [] => true
  | a :: as, b :: bs => ContextType.beq a b && ContextType.beqList as bs
  | _, _ => false

end

mutual

theorem ContextType.beq_iff : ∀ (a b : ContextType), ContextType.beq a b = true ↔ a = b
  | .Scientific a, .Scientific b => by simp [ContextType.beq]
  | .Scientific _, .Symbolic _ => by simp [ContextType.beq]
  | .Scientific _, .Water _ => by simp [ContextType.beq]
  | .Scientific _, .Hybrid _ => by simp [ContextType.beq]
  | .Symbolic _, .Scientific _ => by simp [ContextType.beq]
  | .Symbolic a, .Symbolic b => by simp [ContextType.beq]
  | .Symbolic _, .Water _ => by simp [ContextType.beq]
  | .Symbolic _, .Hybrid _ => by simp [ContextType.beq]
  | .Water _, .Scientific _ => by simp [ContextType.beq]
  | .Water _, .Symbolic _ => by simp [ContextType.beq]
  | .Water a, .Water b => by simp [ContextType.beq]
  | .Water _, .Hybrid _ => by simp [ContextType.beq]
  | .Hybrid _, .Scientific _ => by simp [ContextType.beq]
  | .Hybrid _, .Symbolic _ => by simp [ContextType.beq]
  | .Hybrid _, .Water _ => by simp [ContextType.beq]
  | .Hybrid as, .Hybrid bs => by
      rw [show ContextType.beq (.Hybrid as) (.Hybrid bs) = ContextType.beqList as bs from rfl]
      rw [ContextType.beqList_iff as bs]
      simp

theorem ContextType.beqList_iff :
    ∀ (as bs : List ContextType), ContextType.beqList as bs = true ↔ as = bs
  | [], [] => by simp [ContextType.beqList]
  | [], _ :: _ => by simp [ContextType.beqList]
  | _ :: _, [] => by simp [ContextType.beqList]
  | a :: as, b :: bs => by
      rw [show ContextType.beqList (a :: as) (b :: bs) =
            (ContextType.beq a b && ContextType.beqList as bs) from rfl]
      rw [Bool.and_eq_true, ContextType.beq_iff a b, ContextType.beqList_iff as bs]
      simp

end

instance : DecidableEq ContextType :=
  fun a b => decidable_of_iff _ (ContextType.beq_iff a b)

/-- Minimal model of `serde_json::Value` (only carried in `metadata`
fields, never inspected by the verified operations). -/
inductive JsonValue where
  | null
  | bool (b : Bool)
  | num (n : Int)
  | str (s : String)
  | arr (xs : List JsonValue)
  | obj (fields : List (String × JsonValue))

/-! ## Insertion-ordered association maps (model of `HashMap`) -/

/-- Model of `HashMap<K, V>`: association list in key-insertion order. -/
abbrev AssocMap (K V : Type) : Type := List (K × V)

namespace AssocMap

variable {K V : Type} [DecidableEq K]

def empty : AssocMap K V := []

def lookup : AssocMap K V → K → Option V
  | [], _ => none
  | (k', v) :: rest, k => if k' = k then some v else lookup rest k

/-- `HashMap::insert`: replace in place if the key exists, else append. -/
def insert : AssocMap K V → K → V → AssocMap K V
  | [], k, v => [(k, v)]
  | (k', v') :: rest, k, v =>
      if k' = k then (k, v) :: rest else (k', v') :: insert rest k v

/-- `HashMap::remove`. -/
def erase : AssocMap K V → K → AssocMap K V
  | [], _ => []
  | (k', v') :: rest, k => if k' = k then rest else (k', v') :: erase rest k

/-- `HashMap::values` (insertion order). -/
def values (m : AssocMap K V) : List V := m.map Prod.snd

def keys (m : AssocMap K V) : List K := m.map Prod.fst

/-- `map.entry(k).or_insert_with(Vec::new).push(v)`. -/
def pushEntry : AssocMap K (List V) → K → V → AssocMap K (List V)
  | [], k, v => [(k, [v])]
  | (k', vs) :: rest, k, v =>
      if k' = k then (k', vs ++ [v]) :: rest else (k', vs) :: pushEntry rest k v

@[simp] theorem lookup_nil (k : K) : lookup ([] : AssocMap K V) k = none := rfl

@[simp] theorem lookup_cons (k' : K) (v : V) (rest : AssocMap K V) (k : K) :
    lookup ((k', v) :: rest) k = if k' = k then some v else lookup rest k := rfl

theorem lookup_insert (m : AssocMap K V) (k k' : K) (v : V) :
    lookup (insert m k v) k' = if k' = k then some v else lookup m k' := by
  induction m with
  | nil =>
      by_cases h : k = k'
      · subst h; simp [insert, lookup]
      · simp [insert, lookup, h, Ne.symm h]
  | cons p rest ih =>
      obtain ⟨pk, pv⟩ := p
      simp only [insert]
      by_cases hpk : pk = k
      · subst hpk
        by_cases h : pk = k'
        · subst h; simp [lookup]
        · simp [lookup, h, Ne.symm h]
      · rw [if_neg hpk]
        by_cases hp : pk = k'
        · subst hp
          simp [lookup, hpk]
        · simp [lookup, hp, ih]

theorem lookup_erase (m : AssocMap K V) (k k' : K) (hne : k' ≠ k) :
    lookup (erase m k) k' = lookup m k' := by
  induction m with
  | nil => simp [erase]
  | cons p rest ih =>
      obtain ⟨pk, pv⟩ := p
      simp only [erase]
      by_cases hpk : pk = k
      · subst hpk
        have h2 : ¬ pk = k' := fun h => hne h.symm
        simp [lookup, h2]
      · rw [if_neg hpk]
        by_cases hp : pk = k' <;> simp [lookup, hp, ih]

theorem lookup_pushEntry (m : AssocMap K (List V)) (k k' : K) (v : V) :
    lookup (pushEntry m k v) k' =
      if k' = k then some ((lookup m k).getD [] ++ [v]) else lookup m k' := by
  induction m with
  | nil =>
      by_cases h : k = k'
      · subst h; simp [pushEntry, lookup]
      · simp [pushEntry, lookup, h, Ne.symm h]
  | cons p rest ih =>
      obtain ⟨pk, pvs⟩ := p
      simp only [pushEntry]
      by_cases hpk : pk = k
      · subst hpk
        by_cases h : pk = k'
        · subst h; simp [lookup]
        · simp [lookup, h, Ne.symm h]
      · rw [if_neg hpk]
        by_cases hp : pk = k'
        · subst hp
          simp [lookup, hpk]
        · simp [lookup, hp, ih, hpk]

theorem mem_values_of_lookup {m : AssocMap K V} {k : K} {v : V}
    (h : lookup m k = some v) : v ∈ values m := by
  induction m with
  | nil => simp [lookup] at h
  | cons p rest ih =>
      obtain ⟨pk, pv⟩ := p
      by_cases hpk : pk = k
      · simp only [lookup, if_pos hpk] at h
        cases h
        simp [values]
      · simp only [lookup, if_neg hpk] at h
        have := ih h
        simp only [values, List.map_cons, List.mem_cons]
        exact Or.inr this

theorem mem_values_insert (m : AssocMap K V) (k : K) (v : V) :
    v ∈ values (insert m k v) := by
  induction m with
  | nil => simp [insert, values]
  | cons p rest ih =>
      obtain ⟨pk, pv⟩ := p
      simp only [insert]
      by_cases hpk : pk = k
      · subst hpk
        simp [values]
      · rw [if_neg hpk]
        simp only [values, List.map_cons, List.mem_cons]
        exact Or.inr ih

end AssocMap

/-! ## SHA-256 (model of the `sha2` crate), UTF-8 bytes, hex encoding -/

def w32 (n : Nat) : Nat := n % 4294967296

def rotr32 (x n : Nat) : Nat := w32 ((x >>> n) ||| (x <<< (32 - n)))

def shaCh (x y z : Nat) : Nat := (x &&& y) ^^^ ((x ^^^ 4294967295) &&& z)

def shaMaj (x y z : Nat) : Nat := (x &&& y) ^^^ (x &&& z) ^^^ (y &&& z)

def shaBigSigma0 (x : Nat) : Nat := rotr32 x 2 ^^^ rotr32 x 13 ^^^ rotr32 x 22
def shaBigSigma1 (x : Nat) : Nat := rotr32 x 6 ^^^ rotr32 x 11 ^^^ rotr32 x 25
def shaSmallSigma0 (x : Nat) : Nat := rotr32 x 7 ^^^ rotr32 x 18 ^^^ (x >>> 3)
def shaSmallSigma1 (x : Nat) : Nat := rotr32 x 17 ^^^ rotr32 x 19 ^^^ (x >>> 10)

def icbrtAux (n : Nat) : Nat → Nat → Nat → Nat
  | 0, lo, _ => lo
  | fuel + 1, lo, hi =>
    if hi ≤ lo + 1 then lo
    else
      let mid := (lo + hi) / 2
      if mid * mid * mid ≤ n then icbrtAux n fuel mid hi
      else icbrtAux n fuel lo mid

def icbrt (n : Nat) : Nat := icbrtAux n 256 0 (n + 1)

def shaPrimes64 : List Nat :=
  [2, 3, 5, 7, 11, 13, 17, 19, 23, 29, 31, 37, 41, 43, 47, 53,
   59, 61, 67, 71, 73, 79, 83, 89, 97, 101, 103, 107, 109, 113, 127, 131,
   137, 139, 149, 151, 157, 163, 167, 173, 179, 181, 191, 193, 197, 199, 211, 223,
   227, 229, 233, 239, 241, 251, 257, 263, 269, 271, 277, 281, 283, 293, 307, 311]

def shaK : List Nat := shaPrimes64.map (fun p => icbrt (p * 2 ^ 96) % 2 ^ 32)

def shaH0 : List Nat := (shaPrimes64.take 8).map (fun p => Nat.sqrt (p * 2 ^ 64) % 2 ^ 32)

def bytesToWords32 : List Nat → List Nat
  | b0 :: b1 :: b2 :: b3 :: rest =>
      ((b0 <<< 24) ||| (b1 <<< 16) ||| (b2 <<< 8) ||| b3) :: bytesToWords32 rest
  | _ => []

def shaExtend : Nat → List Nat → List Nat
  | 0, w => w
  | fuel + 1, w =>
      let i := w.length
      let nw := w32 (w.getD (i - 16) 0 + shaSmallSigma0 (w.getD (i - 15) 0) +
        w.getD (i - 7) 0 + shaSmallSigma1 (w.getD (i - 2) 0))
      shaExtend fuel (w ++ [nw])

def shaRound (regs : List Nat) (kw : Nat × Nat) : List Nat :=
  match regs with
  | [a, b, c, d, e, f, g, h] =>
      let t1 := w32 (h + shaBigSigma1 e + shaCh e f g + kw.1 + kw.2)
      let t2 := w32 (shaBigSigma0 a + shaMaj a b c)
      [w32 (t1 + t2), a, b, c, w32 (d + t1), e, f, g]
  | other => other

def shaCompress (h : List Nat) (block : List Nat) : List Nat :=
  let ws := shaExtend 48 (bytesToWords32 block)
  let regs := (shaK.zip ws).foldl shaRound h
  (h.zip regs).map (fun p => w32 (p.1 + p.2))

def be64 (n : Nat) : List Nat :=
  [(n >>> 56) % 256, (n >>> 48) % 256, (n >>> 40) % 256, (n >>> 32) % 256,
   (n >>> 24) % 256, (n >>> 16) % 256, (n >>> 8) % 256, n % 256]

def shaPad (msg : List Nat) : List Nat :=
  let l := msg.length
  msg ++ 128 :: (List.replicate ((119 - l % 64) % 64) 0 ++ be64 (8 * l))

def shaChunks : Nat → List Nat → List Nat → List Nat
  | 0, h, _ => h
  | fuel + 1, h, msg => shaChunks fuel (shaCompress h (msg.take 64)) (msg.drop 64)

def sha256 (msg : List Nat) : List Nat :=
  let p := shaPad msg
  let hf := shaChunks (p.length / 64) shaH0 p
  hf.foldr (fun wrd acc =>
    (wrd >>> 24) % 256 :: (wrd >>> 16) % 256 :: (wrd >>> 8) % 256 :: wrd % 256 :: acc) []

def utf8EncodeChar (c : Char) : List Nat :=
  let n := c.toNat
  if n < 128 then [n]
  else if n < 2048 then [192 ||| (n >>> 6), 128 ||| (n &&& 63)]
  else if n < 65536 then
    [224 ||| (n >>> 12), 128 ||| ((n >>> 6) &&& 63), 128 ||| (n &&& 63)]
  else
    [240 ||| (n >>> 18), 128 ||| ((n >>> 12) &&& 63), 128 ||| ((n >>> 6) &&& 63), 128 ||| (n &&& 63)]

def utf8Bytes (s : String) : List Nat :=
  s.data.foldr (fun c acc => utf8EncodeChar c ++ acc) []

def hexDigit (n : Nat) : Char := if n < 10 then Char.ofNat (48 + n) else Char.ofNat (87 + n)

def hexEncode (bs : List Nat) : String :=
  bs.foldl (fun acc b => (acc.push (hexDigit (b / 16))).push (hexDigit (b % 16))) ""

/-! ## Core data structures (`models.rs`) -/

structure FractalNode where
  id : String
  name : String
  water_state : FlowState
  archetype : List String
  resonance : Float
  fractal_level : Nat
  contexts : List ContextType
  parent_id : Option String
  created_at : Nat
  updated_at : Nat
  metadata : AssocMap String JsonValue

structure Contribution where
  id : String
  node_id : String
  user_id : String
  content : String
  resonance : Float
  timestamp : Nat
  fractal_context : Option ContextType
  metadata : AssocMap String JsonValue

structure FractalExpansionStats where
  total_fractal_dimensions : Nat
  contexts : List ContextType
  level_breakdown : AssocMap Nat Nat

structure StorageStats where
  version : String
  fractal_level : Nat
  total_contributions : Nat
  total_nodes : Nat
  total_subnodes : Nat
  total_users : Nat
  total_size : Nat
  last_updated : Nat
  fractal_expansion : FractalExpansionStats

/-- `FractalNode::new` (models.rs:140): fresh node with empty context
list and empty metadata. -/
def FractalNode.new (id name : String) (water_state : FlowState)
    (archetype : List String) (resonance : Float) (fractal_level : Nat)
    (parent_id : Option String) (now : Nat) : FractalNode :=
  { id := id, name := name, water_state := water_state, archetype := archetype,
    resonance := resonance, fractal_level := fractal_level, contexts := [],
    parent_id := parent_id, created_at := now, updated_at := now,
    metadata := AssocMap.empty }

/-- `FractalNode::add_context` (models.rs:165): push the context and bump
`updated_at`. -/
def FractalNode.add_context (n : FractalNode) (context : ContextType) (now : Nat) :
    FractalNode :=
  { n with contexts := n.contexts ++ [context], updated_at := now }

/-- `FractalNode::get_context_count`. -/
def FractalNode.get_context_count (n : FractalNode) : Nat := n.contexts.length

/-- `FractalNode::has_context`. -/
def FractalNode.has_context (n : FractalNode) (context_type : ContextType) : Bool :=
  n.contexts.contains context_type

/-- The `match new_state` table of `Transformable::transform` for
`FractalNode` (models.rs:235-244).  `"wave"` is absent. -/
def parse_flow_state (s : String) : Option FlowState :=
  if s = "solid" then some .Solid
  else if s = "liquid" then some .Liquid
  else if s = "gas" then some .Gas
  else if s = "plasma" then some .Plasma
  else if s = "colloidal" then some .Colloidal
  else if s = "crystalline" then some .Crystalline
  else if s = "living" then some .Living
  else none

/-- `Transformable::transform` for `FractalNode` (models.rs:234): the
result pair is (the node after the call, the returned `Result`).  On the
`Err` path the Rust method returns before touching `self`, so the node
component is unchanged. -/
def FractalNode.transform (n : FractalNode) (new_state : String) (now : Nat) :
    FractalNode × Except String Unit :=
  match parse_flow_state new_state with
  | none => (n, Except.error ("Unknown state: " ++ new_state))
  | some fs => ({ n with water_state := fs, updated_at := now }, Except.ok ())

/-! ## The store (`storage.rs`)

`StorageConfig` is omitted: none of its fields is consulted by the
operations below (the Rust code never enforces `max_nodes`,
`max_contributions` or `resonance_threshold`), and the directory-creation
side effects of `ensure_storage_exists` never feed back into the
in-memory state. -/

/-- The receipt JSON built by `store_contribution` (storage.rs:324). -/
structure Receipt where
  id : String
  content_hash : String
  node_id : String
  resonance : Float
  timestamp : Nat

/-- The JSON built by `get_node_contributions` / `get_user_contributions`:
the filtered list plus its length. -/
structure ContributionListing where
  contributions : List Contribution
  count : Nat

/-- The JSON built by `get_fractal_expansion` (storage.rs:407): the base
node, the three context groups keyed `"scientific"`, `"symbolic"`,
`"water"`, and the total context count. -/
structure ExpansionResult where
  base_node : FractalNode
  scientific : List ContextType
  symbolic : List ContextType
  water : List ContextType
  total_contexts : Nat

/-- In-memory state of `FractalStorage` (storage.rs:94). -/
structure FractalStorage where
  nodes : AssocMap String FractalNode
  contributions : AssocMap String Contribution
  stats : StorageStats
  node_contexts : AssocMap ContextType (List String)

/-- `StorageStats::default` (models.rs:284). -/
def StorageStats.defaultAt (now : Nat) : StorageStats :=
  { version := "3.0.0", fractal_level := 2, total_contributions := 0,
    total_nodes := 0, total_subnodes := 0, total_users := 0, total_size := 0,
    last_updated := now,
    fractal_expansion :=
      { total_fractal_dimensions := 3,
        contexts := [ContextType.Scientific .Empirical,
                     ContextType.Symbolic .Archetypal,
                     ContextType.Water .Phase],
        level_breakdown := AssocMap.empty } }

/-- The store state before any node is registered (the field initializers
of `FractalStorage::new` / `with_config`). -/
def FractalStorage.emptyAt (now : Nat) : FractalStorage :=
  { nodes := AssocMap.empty, contributions := AssocMap.empty,
    stats := StorageStats.defaultAt now, node_contexts := AssocMap.empty }

namespace FractalStorage

/-- `FractalStorage::add_node_to_context` (storage.rs:259). -/
def add_node_to_context (st : FractalStorage) (context : ContextType)
    (node_id : String) : FractalStorage :=
  { st with node_contexts := AssocMap.pushEntry st.node_contexts context node_id }

/-- `FractalStorage::generate_content_hash` (storage.rs:266). -/
def generate_content_hash (content : String) : String :=
  hexEncode (sha256 (utf8Bytes content))

/-- The `scientific_contexts` vector of `expand_node_fractally`. -/
def scientific_contexts : List ScientificContext :=
  [.Empirical, .Theoretical, .Experimental]

/-- The `symbolic_contexts` vector of `expand_node_fractally`. -/
def symbolic_contexts : List SymbolicContext := [.Archetypal, .Cultural, .Personal]

/-- The `water_contexts` vector of `expand_node_fractally`. -/
def water_contexts : List WaterContext := [.Phase, .Flow, .Coherence]

/-- One loop iteration of `expand_node_fractally`: attach the context to
the node, then record the context → node-id mapping. -/
def expandStep (now : Nat) (p : FractalStorage × FractalNode)
    (context : ContextType) : FractalStorage × FractalNode :=
  let n := p.2.add_context context now
  (add_node_to_context p.1 context n.id, n)

/-- `FractalStorage::expand_node_fractally` (storage.rs:213): the three
loops over the scientific, symbolic and water context values.  The Rust
method is infallible (`Ok(())` unconditionally) and performs no
`fractal_level` check. -/
def expand_node_fractally (st : FractalStorage) (base_node : FractalNode)
    (now : Nat) : FractalStorage × FractalNode :=
  let p1 := (scientific_contexts.map ContextType.Scientific).foldl
    (expandStep now) (st, base_node)
  let p2 := (symbolic_contexts.map ContextType.Symbolic).foldl (expandStep now) p1
  (water_contexts.map ContextType.Water).foldl (expandStep now) p2

/-- `NodeStorage::store_node` (storage.rs:278): insert by `node.id` and
bump the per-level counter. -/
def store_node (st : FractalStorage) (node : FractalNode) (now : Nat) :
    FractalStorage :=
  let stats := st.stats
  let stats :=
    if node.fractal_level = 1 then { stats with total_nodes := stats.total_nodes + 1 }
    else { stats with total_subnodes := stats.total_subnodes + 1 }
  { st with nodes := AssocMap.insert st.nodes node.id node,
            stats := { stats with last_updated := now } }

/-- `NodeStorage::get_node` (storage.rs:294). -/
def get_node (st : FractalStorage) (node_id : String) : Option FractalNode :=
  AssocMap.lookup st.nodes node_id

/-- `NodeStorage::get_all_nodes`. -/
def get_all_nodes (st : FractalStorage) : List FractalNode :=
  AssocMap.values st.nodes

/-- `NodeStorage::delete_node` (storage.rs:304): removes from the node
table only; the context index and the stats are not touched. -/
def delete_node (st : FractalStorage) (node_id : String) : FractalStorage :=
  { st with nodes := AssocMap.erase st.nodes node_id }

/-- `ContributionStorage::store_contribution` (storage.rs:312): insert by
`contribution.id`, bump the contribution counter, and return the receipt
with the content hash computed at call time (the hash is not stored). -/
def store_contribution (st : FractalStorage) (contribution : Contribution)
    (now : Nat) : FractalStorage × Receipt :=
  let st' := { st with
    contributions := AssocMap.insert st.contributions contribution.id contribution,
    stats := { st.stats with
      total_contributions := st.stats.total_contributions + 1,
      last_updated := now } }
  (st', { id := contribution.id,
          content_hash := generate_content_hash contribution.content,
          node_id := contribution.node_id,
          resonance := contribution.resonance,
          timestamp := contribution.timestamp })

/-- `ContributionStorage::get_contribution` (storage.rs:333): linear scan
recomputing each stored contribution's hash. -/
def get_contribution (st : FractalStorage) (content_hash : String) :
    Option Contribution :=
  (AssocMap.values st.contributions).find? fun c =>
    generate_content_hash c.content == content_hash

/-- `ContributionStorage::get_node_contributions` (storage.rs:340). -/
def get_node_contributions (st : FractalStorage) (node_id : String) :
    ContributionListing :=
  let cs := (AssocMap.values st.contributions).filter fun c => c.node_id == node_id
  { contributions := cs, count := cs.length }

/-- `ContributionStorage::get_user_contributions` (storage.rs:353). -/
def get_user_contributions (st : FractalStorage) (user_id : String) :
    ContributionListing :=
  let cs := (AssocMap.values st.contributions).filter fun c => c.user_id == user_id
  { contributions := cs, count := cs.length }

/-- One iteration of the context-grouping loop of `get_fractal_expansion`
(storage.rs:387-405): the triple is the (`"scientific"`, `"symbolic"`,
`"water"`) groups; a `Hybrid` context is pushed into all three. -/
def groupStep (g : List ContextType × List ContextType × List ContextType)
    (context : ContextType) :
    List ContextType × List ContextType × List ContextType :=
  match context with
  | .Scientific _ => (g.1 ++ [context], g.2.1, g.2.2)
  | .Symbolic _ => (g.1, g.2.1 ++ [context], g.2.2)
  | .Water _ => (g.1, g.2.1, g.2.2 ++ [context])
  | .Hybrid _ => (g.1 ++ [context], g.2.1 ++ [context], g.2.2 ++ [context])

/-- `FractalExpansionStorage::get_fractal_expansion` (storage.rs:372):
read-only (`&self`); rejects a missing node and a node whose
`fractal_level` is not 1. -/
def get_fractal_expansion (st : FractalStorage) (node_id : String) :
    Except String ExpansionResult :=
  match AssocMap.lookup st.nodes node_id with
  | none => Except.error ("Node not found: " ++ node_id)
  | some base_node =>
      if base_node.fractal_level ≠ 1 then
        Except.error "Only base nodes can be expanded"
      else
        let g := base_node.contexts.foldl groupStep ([], [], [])
        Except.ok { base_node := base_node, scientific := g.1, symbolic := g.2.1,
                    water := g.2.2, total_contexts := base_node.contexts.length }

/-- `FractalExpansionStorage::get_context_nodes` (storage.rs:415): ids
from the context index, filtered through the node table. -/
def get_context_nodes (st : FractalStorage) (context : ContextType) :
    List FractalNode :=
  let node_ids := (AssocMap.lookup st.node_contexts context).getD []
  node_ids.filterMap (AssocMap.lookup st.nodes)

/-- `StorageMetadata::get_storage_stats`. -/
def get_storage_stats (st : FractalStorage) : StorageStats := st.stats

/-- `StorageMetadata::update_stats` (storage.rs:432): full recomputation
of the three counters from the tables. -/
def update_stats (st : FractalStorage) (now : Nat) : FractalStorage :=
  { st with stats := { st.stats with
      last_updated := now,
      total_nodes :=
        ((AssocMap.values st.nodes).filter fun n => n.fractal_level == 1).length,
      total_subnodes :=
        ((AssocMap.values st.nodes).filter fun n => n.fractal_level > 1).length,
      total_contributions := (AssocMap.values st.contributions).length } }

end FractalStorage

/-- The `context_key` match of `group_nodes_by_context` (storage.rs:484):
a `Hybrid` context maps to the `"hybrid"` bucket (only). -/
def contextKey : ContextType → String
  | ContextType.Scientific _ => "scientific"
  | ContextType.Symbolic _ => "symbolic"
  | ContextType.Water _ => "water"
  | ContextType.Hybrid _ => "hybrid"

/-- Inner loop body of `group_nodes_by_context`. -/
def groupPushContext (node : FractalNode)
    (groups : AssocMap String (List FractalNode)) (context : ContextType) :
    AssocMap String (List FractalNode) :=
  AssocMap.pushEntry groups (contextKey context) node

/-- `group_nodes_by_context` (storage.rs:479): scans the nodes and pushes
each node into the bucket of each of its contexts' families. -/
def group_nodes_by_context (nodes : List FractalNode) :
    AssocMap String (List FractalNode) :=
  nodes.foldl (fun groups node =>
    node.contexts.foldl (groupPushContext node) groups) AssocMap.empty

/-! ## Helper lemmas about expansion -/

/-- The nine context values of the fixed taxonomy (3 scientific,
3 symbolic, 3 water), in the order `expand_node_fractally` attaches
them. -/
def nineContexts : List ContextType :=
  [.Scientific .Empirical, .Scientific .Theoretical, .Scientific .Experimental,
   .Symbolic .Archetypal, .Symbolic .Cultural, .Symbolic .Personal,
   .Water .Phase, .Water .Flow, .Water .Coherence]

theorem expand_contexts_eq (st : FractalStorage) (n : FractalNode) (now : Nat) :
    ((FractalStorage.expand_node_fractally st n now).2).contexts =
      n.contexts ++ nineContexts := by
  simp [FractalStorage.expand_node_fractally, FractalStorage.expandStep,
    FractalStorage.scientific_contexts, FractalStorage.symbolic_contexts,
    FractalStorage.water_contexts, FractalNode.add_context, nineContexts]

theorem expand_id_eq (st : FractalStorage) (n : FractalNode) (now : Nat) :
    ((FractalStorage.expand_node_fractally st n now).2).id = n.id := by
  simp [FractalStorage.expand_node_fractally, FractalStorage.expandStep,
    FractalStorage.scientific_contexts, FractalStorage.symbolic_contexts,
    FractalStorage.water_contexts, FractalNode.add_context]

theorem expand_nodes_eq (st : FractalStorage) (n : FractalNode) (now : Nat) :
    (FractalStorage.expand_node_fractally st n now).1.nodes = st.nodes := by
  simp [FractalStorage.expand_node_fractally, FractalStorage.expandStep,
    FractalStorage.scientific_contexts, FractalStorage.symbolic_contexts,
    FractalStorage.water_contexts, FractalStorage.add_node_to_context]

theorem expand_index_eq (st : FractalStorage) (n : FractalNode) (now : Nat)
    (ctx : ContextType) (h : ctx ∈ nineContexts) :
    AssocMap.lookup (FractalStorage.expand_node_fractally st n now).1.node_contexts ctx =
      some ((AssocMap.lookup st.node_contexts ctx).getD [] ++ [n.id]) := by
  fin_cases h <;>
    simp [FractalStorage.expand_node_fractally, FractalStorage.expandStep,
      FractalStorage.scientific_contexts, FractalStorage.symbolic_contexts,
      FractalStorage.water_contexts, FractalStorage.add_node_to_context,
      FractalNode.add_context, AssocMap.lookup_pushEntry]

/-! ## Concrete fixtures used by witnesses and counterexamples -/

/-- The first seed node of `initialize_fractal_nodes` (storage.rs:169). -/
def voidNode : FractalNode :=
  FractalNode.new "codex:Void" "Void" .Plasma
    ["Potential", "Infinite", "Source"] 1.0 1 none 0

/-! ## C1 — completeness of expansion -/

/-- C1: for a level-1 base node (fresh from `FractalNode::new`, so with
an empty context list), `expand_node_fractally` attaches exactly the
9 = 3 × 3 context values — each of the 3 scientific, 3 symbolic and
3 water values exactly once, and nothing else. -/
theorem C1_expansion_completeness (st : FractalStorage) (n : FractalNode) (now : Nat)
    (hlevel : n.fractal_level = 1) (hfresh : n.contexts = []) :
    ((FractalStorage.expand_node_fractally st n now).2).contexts = nineContexts ∧
    nineContexts.length = 9 ∧ nineContexts.Nodup ∧
    (∀ c : ContextType,
      ((FractalStorage.expand_node_fractally st n now).2).contexts.count c =
        if c ∈ nineContexts then 1 else 0) := by
  have hc : ((FractalStorage.expand_node_fractally st n now).2).contexts = nineContexts := by
    rw [expand_contexts_eq, hfresh, List.nil_append]
  have hnd : nineContexts.Nodup := by decide
  refine ⟨hc, rfl, hnd, fun c => ?_⟩
  rw [hc]
  by_cases hmem : c ∈ nineContexts
  · rw [if_pos hmem]
    exact List.count_eq_one_of_mem hnd hmem
  · rw [if_neg hmem]
    exact List.count_eq_zero_of_not_mem hmem

theorem C1_expansion_completeness_witness :
    ((FractalStorage.expand_node_fractally (FractalStorage.emptyAt 0) voidNode 0).2).contexts =
      nineContexts ∧ nineContexts.length = 9 ∧ nineContexts.Nodup :=
  have h := C1_expansion_completeness (FractalStorage.emptyAt 0) voidNode 0 rfl rfl
  ⟨h.1, h.2.1, h.2.2.1⟩

/-! ## C2 — expansion is deterministic but not idempotent -/

/-- C2 counterexample: re-running `expand_node_fractally` on the
already-expanded node is not idempotent — `add_context` pushes without
deduplication, so the second run appends the nine contexts again (9 →
18) and duplicates the node id in the context index. -/
theorem C2_idempotence_counterexample :
    ((FractalStorage.expand_node_fractally
        (FractalStorage.expand_node_fractally (FractalStorage.emptyAt 0) voidNode 0).1
        (FractalStorage.expand_node_fractally (FractalStorage.emptyAt 0) voidNode 0).2
        0).2).contexts ≠
      ((FractalStorage.expand_node_fractally (FractalStorage.emptyAt 0) voidNode 0).2).contexts ∧
    ((FractalStorage.expand_node_fractally (FractalStorage.emptyAt 0) voidNode 0).2).contexts.length = 9 ∧
    ((FractalStorage.expand_node_fractally
        (FractalStorage.expand_node_fractally (FractalStorage.emptyAt 0) voidNode 0).1
        (FractalStorage.expand_node_fractally (FractalStorage.emptyAt 0) voidNode 0).2
        0).2).contexts.length = 18 ∧
    AssocMap.lookup
        (FractalStorage.expand_node_fractally (FractalStorage.emptyAt 0) voidNode 0).1.node_contexts
        (.Scientific .Empirical) = some ["codex:Void"] ∧
    AssocMap.lookup
        (FractalStorage.expand_node_fractally
          (FractalStorage.expand_node_fractally (FractalStorage.emptyAt 0) voidNode 0).1
          (FractalStorage.expand_node_fractally (FractalStorage.emptyAt 0) voidNode 0).2
          0).1.node_contexts
        (.Scientific .Empirical) = some ["codex:Void", "codex:Void"] := by
  refine ⟨by decide, by decide, by decide, by decide, by decide⟩

/-- C2 (amended): expansion is deterministic — a pure function of the
starting attributes that appends exactly the nine taxonomy contexts, so
two runs from the same starting attributes yield identical context sets
— but it is not idempotent: running it a second time on the result
appends the nine contexts a second time. -/
theorem C2_expansion_deterministic_not_idempotent
    (st : FractalStorage) (n : FractalNode) (now : Nat) :
    ((FractalStorage.expand_node_fractally st n now).2).contexts =
      n.contexts ++ nineContexts ∧
    ((FractalStorage.expand_node_fractally
        (FractalStorage.expand_node_fractally st n now).1
        (FractalStorage.expand_node_fractally st n now).2 now).2).contexts =
      n.contexts ++ nineContexts ++ nineContexts := by
  constructor
  · exact expand_contexts_eq st n now
  · rw [expand_contexts_eq, expand_contexts_eq]

/-! ## C3 — rejection of non-base expansion targets; no partial expansion -/

/-- C3: requesting the expansion of a stored node whose `fractal_level`
is not 1 is rejected by `get_fractal_expansion` with the
`InvalidExpansionTarget`-class error `"Only base nodes can be expanded"`
(the Rust method takes `&self`, and its embedding returns no state, so
the rejection modifies neither the node table nor the context index);
and expansion itself never partially completes: `expand_node_fractally`
is total (the Rust method returns `Ok(())` unconditionally) and always
registers all nine derivatives — every taxonomy context ends up both in
the node's context list and, mapped to the node's id, in the context
index, and the expand-then-store sequence of `initialize_fractal_nodes`
leaves the expanded node in the node table. -/
theorem C3_expansion_rejection_atomicity :
    (∀ (st : FractalStorage) (node_id : String) (n : FractalNode),
      FractalStorage.get_node st node_id = some n → n.fractal_level ≠ 1 →
      FractalStorage.get_fractal_expansion st node_id =
        Except.error "Only base nodes can be expanded") ∧
    (∀ (st : FractalStorage) (n : FractalNode) (now : Nat) (ctx : ContextType),
      ctx ∈ nineContexts →
      ctx ∈ ((FractalStorage.expand_node_fractally st n now).2).contexts ∧
      n.id ∈ (AssocMap.lookup
        (FractalStorage.expand_node_fractally st n now).1.node_contexts ctx).getD []) ∧
    (∀ (st : FractalStorage) (n : FractalNode) (now : Nat),
      FractalStorage.get_node
        (FractalStorage.store_node
          (FractalStorage.expand_node_fractally st n now).1
          (FractalStorage.expand_node_fractally st n now).2 now)
        n.id = some (FractalStorage.expand_node_fractally st n now).2) := by
  refine ⟨?_, ?_, ?_⟩
  · intro st node_id n hlook hlev
    unfold FractalStorage.get_fractal_expansion
    unfold FractalStorage.get_node at hlook
    rw [hlook]
    simp [hlev]
  · intro st n now ctx hctx
    constructor
    · rw [expand_contexts_eq]
      exact List.mem_append_right _ hctx
    · rw [expand_index_eq st n now ctx hctx]
      simp
  · intro st n now
    unfold FractalStorage.get_node FractalStorage.store_node
    simp only [AssocMap.lookup_insert]
    rw [expand_id_eq]
    simp

theorem C3_expansion_rejection_atomicity_witness :
    (FractalStorage.get_fractal_expansion
        (FractalStorage.store_node (FractalStorage.emptyAt 0)
          (FractalNode.new "codex:Void:science:empirical" "Void-Sub" .Liquid [] 0.8 2
            (some "codex:Void") 0) 0)
        "codex:Void:science:empirical" =
      Except.error "Only base nodes can be expanded") ∧
    ((ContextType.Water .Coherence) ∈
      ((FractalStorage.expand_node_fractally (FractalStorage.emptyAt 0) voidNode 0).2).contexts ∧
     "codex:Void" ∈ (AssocMap.lookup
        (FractalStorage.expand_node_fractally (FractalStorage.emptyAt 0) voidNode 0).1.node_contexts
        (ContextType.Water .Coherence)).getD []) :=
  ⟨C3_expansion_rejection_atomicity.1
      (FractalStorage.store_node (FractalStorage.emptyAt 0)
        (FractalNode.new "codex:Void:science:empirical" "Void-Sub" .Liquid [] 0.8 2
          (some "codex:Void") 0) 0)
      "codex:Void:science:empirical"
      (FractalNode.new "codex:Void:science:empirical" "Void-Sub" .Liquid [] 0.8 2
        (some "codex:Void") 0)
      rfl (by decide),
   C3_expansion_rejection_atomicity.2.1 (FractalStorage.emptyAt 0) voidNode 0
      (ContextType.Water .Coherence) (by decide)⟩

/-! ## C4 — index/table consistency -/

/-- The expand-then-store state for the seed node, as produced by
`initialize_fractal_nodes` for a single base node. -/
def storedVoidState : FractalStorage :=
  FractalStorage.store_node
    (FractalStorage.expand_node_fractally (FractalStorage.emptyAt 0) voidNode 0).1
    (FractalStorage.expand_node_fractally (FractalStorage.emptyAt 0) voidNode 0).2 0

/-- A node carrying a context, stored directly via `store_node` (which
never touches the context index). -/
def patternNode : FractalNode :=
  { voidNode with id := "codex:Pattern", contexts := [ContextType.Water .Phase] }

/-- C4 counterexample: the invariant fails in both directions.
After `delete_node`, the context index still holds the deleted node's id
(an orphaned entry — `delete_node` only touches the node table); and a
node stored via `store_node` with a context in its context set is never
entered into the index. -/
theorem C4_index_table_counterexample :
    (AssocMap.lookup (FractalStorage.delete_node storedVoidState "codex:Void").node_contexts
        (.Scientific .Empirical) = some ["codex:Void"] ∧
     FractalStorage.get_node (FractalStorage.delete_node storedVoidState "codex:Void")
        "codex:Void" = none) ∧
    ((FractalStorage.get_node
        (FractalStorage.store_node (FractalStorage.emptyAt 0) patternNode 0)
        "codex:Pattern").map (fun n => n.contexts) = some [ContextType.Water .Phase] ∧
     AssocMap.lookup
        (FractalStorage.store_node (FractalStorage.emptyAt 0) patternNode 0).node_contexts
        (.Water .Phase) = none) := by
  exact ⟨⟨by decide, by rfl⟩, ⟨by rfl, by decide⟩⟩

/-- C4 (amended): the raw context index is maintained only by
expansion's `add_node_to_context`; `store_node` does not index a node's
contexts and `delete_node` leaves orphaned index entries.  What does
hold is the retrieval-level half of the invariant: `get_context_nodes`
filters the indexed ids through the node table, so every node it
returns is present in the node table. -/
theorem C4_get_context_nodes_in_table (st : FractalStorage) (ctx : ContextType)
    (n : FractalNode) (h : n ∈ FractalStorage.get_context_nodes st ctx) :
    ∃ i, AssocMap.lookup st.nodes i = some n ∧ n ∈ AssocMap.values st.nodes := by
  unfold FractalStorage.get_context_nodes at h
  rcases List.mem_filterMap.mp h with ⟨i, _, hlook⟩
  exact ⟨i, hlook, AssocMap.mem_values_of_lookup hlook⟩

theorem C4_get_context_nodes_in_table_witness :
    ∃ i, AssocMap.lookup storedVoidState.nodes i =
        some (FractalStorage.expand_node_fractally (FractalStorage.emptyAt 0) voidNode 0).2 ∧
      (FractalStorage.expand_node_fractally (FractalStorage.emptyAt 0) voidNode 0).2 ∈
        AssocMap.values storedVoidState.nodes :=
  C4_get_context_nodes_in_table storedVoidState (.Scientific .Empirical)
    (FractalStorage.expand_node_fractally (FractalStorage.emptyAt 0) voidNode 0).2
    (show (FractalStorage.expand_node_fractally (FractalStorage.emptyAt 0) voidNode 0).2 ∈
        [(FractalStorage.expand_node_fractally (FractalStorage.emptyAt 0) voidNode 0).2] from
      List.mem_singleton.mpr rfl)

/-! ## C5 — incremental vs recomputed stats -/

/-- A store write; the claim's setting has only node inserts and
contribution appends (no deletes). -/
inductive StoreOp where
  | putNode (n : FractalNode) (now : Nat)
  | putContribution (c : Contribution) (now : Nat)

/-- Run a sequence of writes against the store. -/
def runOps (st : FractalStorage) : List StoreOp → FractalStorage
  | [] => st
  | StoreOp.putNode n now :: rest =>
      runOps (FractalStorage.store_node st n now) rest
  | StoreOp.putContribution c now :: rest =>
      runOps (FractalStorage.store_contribution st c now).1 rest

/-- The nodes inserted by a sequence of writes, in order. -/
def opNodes : List StoreOp → List FractalNode
  | [] => []
  | StoreOp.putNode n _ :: rest => n :: opNodes rest
  | StoreOp.putContribution _ _ :: rest => opNodes rest

/-- The contributions appended by a sequence of writes, in order. -/
def opContribs : List StoreOp → List Contribution
  | [] => []
  | StoreOp.putNode _ _ :: rest => opContribs rest
  | StoreOp.putContribution c _ :: rest => c :: opContribs rest


theorem insert_eq_append_of_fresh {K V : Type} [DecidableEq K]
    (m : AssocMap K V) (k : K) (v : V) (h : k ∉ AssocMap.keys m) :
    AssocMap.insert m k v = m ++ [(k, v)] := by
  induction m with
  | nil => rfl
  | cons p rest ih =>
      obtain ⟨pk, pv⟩ := p
      simp only [AssocMap.keys, List.map_cons, List.mem_cons, not_or] at h
      have hne : ¬ pk = k := fun hh => h.1 hh.symm
      simp only [AssocMap.insert, if_neg hne, List.cons_append, List.cons.injEq,
        true_and]
      exact ih h.2

theorem mem_keys_iff_lookup {K V : Type} [DecidableEq K]
    (m : AssocMap K V) (k : K) :
    k ∈ AssocMap.keys m ↔ (AssocMap.lookup m k).isSome := by
  induction m with
  | nil => simp [AssocMap.keys, AssocMap.lookup]
  | cons p rest ih =>
      obtain ⟨pk, pv⟩ := p
      by_cases hpk : pk = k
      · subst hpk
        simp [AssocMap.keys, AssocMap.lookup]
      · have hkp : ¬ k = pk := fun hh => hpk hh.symm
        have e : AssocMap.keys ((pk, pv) :: rest) = pk :: AssocMap.keys rest := rfl
        rw [e, AssocMap.lookup_cons, if_neg hpk, List.mem_cons]
        simp [hkp, ih]

theorem not_mem_keys_insert {K V : Type} [DecidableEq K]
    {m : AssocMap K V} {k k' : K} {v : V}
    (h1 : k' ∉ AssocMap.keys m) (h2 : k' ≠ k) :
    k' ∉ AssocMap.keys (AssocMap.insert m k v) := by
  rw [mem_keys_iff_lookup] at h1 ⊢
  rw [AssocMap.lookup_insert, if_neg h2]
  exact h1

/-- The incremental counters count the write calls (by level, for
nodes), independently of id collisions. -/
theorem runOps_incremental_counters (ops : List StoreOp) (st : FractalStorage) :
    (runOps st ops).stats.total_nodes =
      st.stats.total_nodes +
        ((opNodes ops).filter (fun n => n.fractal_level == 1)).length ∧
    (runOps st ops).stats.total_subnodes =
      st.stats.total_subnodes +
        ((opNodes ops).filter (fun n => !(n.fractal_level == 1))).length ∧
    (runOps st ops).stats.total_contributions =
      st.stats.total_contributions + (opContribs ops).length := by
  induction ops generalizing st with
  | nil => simp [runOps, opNodes, opContribs]
  | cons op rest ih =>
      cases op with
      | putNode n now =>
          rcases ih (FractalStorage.store_node st n now) with ⟨h1, h2, h3⟩
          have e1 : runOps st (StoreOp.putNode n now :: rest) =
              runOps (FractalStorage.store_node st n now) rest := rfl
          rw [e1, h1, h2, h3]
          by_cases hl : n.fractal_level = 1 <;>
            simp [FractalStorage.store_node, opNodes, opContribs, hl,
              List.filter_cons] <;> omega
      | putContribution c now =>
          rcases ih (FractalStorage.store_contribution st c now).1 with ⟨h1, h2, h3⟩
          have e1 : runOps st (StoreOp.putContribution c now :: rest) =
              runOps (FractalStorage.store_contribution st c now).1 rest := rfl
          rw [e1, h1, h2, h3]
          simp [FractalStorage.store_contribution, opNodes, opContribs]
          omega

/-- With all-fresh, pairwise-distinct ids the writes append to the
tables in order. -/
theorem runOps_tables (ops : List StoreOp) (st : FractalStorage)
    (hnodup : ((opNodes ops).map (fun n => n.id)).Nodup)
    (hcdup : ((opContribs ops).map (fun c => c.id)).Nodup)
    (hnfresh : ∀ n ∈ opNodes ops, n.id ∉ AssocMap.keys st.nodes)
    (hcfresh : ∀ c ∈ opContribs ops, c.id ∉ AssocMap.keys st.contributions) :
    (runOps st ops).nodes = st.nodes ++ (opNodes ops).map (fun n => (n.id, n)) ∧
    (runOps st ops).contributions =
      st.contributions ++ (opContribs ops).map (fun c => (c.id, c)) := by
  induction ops generalizing st with
  | nil => simp [runOps, opNodes, opContribs]
  | cons op rest ih =>
      cases op with
      | putNode n now =>
          have e1 : runOps st (StoreOp.putNode n now :: rest) =
              runOps (FractalStorage.store_node st n now) rest := rfl
          simp only [opNodes, List.map_cons, List.nodup_cons, List.mem_map] at hnodup
          have hfresh : n.id ∉ AssocMap.keys st.nodes :=
            hnfresh n (by simp [opNodes])
          have hins : AssocMap.insert st.nodes n.id n = st.nodes ++ [(n.id, n)] :=
            insert_eq_append_of_fresh st.nodes n.id n hfresh
          have hnodes1 : (FractalStorage.store_node st n now).nodes =
              AssocMap.insert st.nodes n.id n := rfl
          have hcon1 : (FractalStorage.store_node st n now).contributions =
              st.contributions := rfl
          have hrest := ih (FractalStorage.store_node st n now) hnodup.2
            (by simpa [opContribs] using hcdup)
            (by
              intro m hm
              rw [hnodes1]
              exact not_mem_keys_insert
                (hnfresh m (by simp [opNodes, hm]))
                (fun hh => hnodup.1 ⟨m, hm, hh⟩))
            (by
              intro c hc
              rw [hcon1]
              exact hcfresh c (by simpa [opContribs] using hc))
          refine ⟨?_, ?_⟩
          · rw [e1, hrest.1, hnodes1, hins]
            simp [opNodes]
          · rw [e1, hrest.2, hcon1]
            simp [opNodes, opContribs]
      | putContribution c now =>
          have e1 : runOps st (StoreOp.putContribution c now :: rest) =
              runOps (FractalStorage.store_contribution st c now).1 rest := rfl
          simp only [opContribs, List.map_cons, List.nodup_cons, List.mem_map] at hcdup
          have hfresh : c.id ∉ AssocMap.keys st.contributions :=
            hcfresh c (by simp [opContribs])
          have hins : AssocMap.insert st.contributions c.id c =
              st.contributions ++ [(c.id, c)] :=
            insert_eq_append_of_fresh st.contributions c.id c hfresh
          have hnodes1 : (FractalStorage.store_contribution st c now).1.nodes =
              st.nodes := rfl
          have hcon1 : (FractalStorage.store_contribution st c now).1.contributions =
              AssocMap.insert st.contributions c.id c := rfl
          have hrest := ih (FractalStorage.store_contribution st c now).1
            (by simpa [opNodes] using hnodup) hcdup.2
            (by
              intro m hm
              rw [hnodes1]
              exact hnfresh m (by simpa [opNodes] using hm))
            (by
              intro d hd
              rw [hcon1]
              exact not_mem_keys_insert
                (hcfresh d (by simp [opContribs, hd]))
                (fun hh => hcdup.1 ⟨d, hd, hh⟩))
          refine ⟨?_, ?_⟩
          · rw [e1, hrest.1, hnodes1]
            simp [opNodes, opContribs]
          · rw [e1, hrest.2, hcon1, hins]
            simp [opContribs]

/-- A level-1 node used to exhibit the duplicate-id divergence. -/
def dupNode : FractalNode := FractalNode.new "a" "A" .Liquid [] 0.5 1 none 0

/-- C5 counterexample: storing the same level-1 node twice (two calls, so
k = 2) drives the incremental counter to 2, but `update_stats` recomputes
1 from the table — the two update paths disagree, and `update_stats` does
not leave `total_nodes` unchanged. -/
theorem C5_stats_counterexample :
    (FractalStorage.store_node
        (FractalStorage.store_node (FractalStorage.emptyAt 0) dupNode 0)
        dupNode 0).stats.total_nodes = 2 ∧
    (FractalStorage.update_stats
        (FractalStorage.store_node
          (FractalStorage.store_node (FractalStorage.emptyAt 0) dupNode 0)
          dupNode 0) 0).stats.total_nodes = 1 :=
  ⟨by decide, by decide⟩

/-- C5 (amended): over any sequence of `store_node` / `store_contribution`
calls from the empty store with no deletes, **provided the stored node ids
are pairwise distinct, the contribution ids are pairwise distinct, and
every stored node has `fractal_level ≥ 1`**, the incrementally maintained
counters equal the claim's counts (`total_nodes` = number of level-1
inserts, `total_contributions` = number of appends), and a subsequent
`update_stats` recomputation leaves `total_nodes`, `total_subnodes` and
`total_contributions` unchanged. -/
theorem C5_stats_agreement (ops : List StoreOp) (t0 tu : Nat)
    (hnodup : ((opNodes ops).map (fun n => n.id)).Nodup)
    (hcdup : ((opContribs ops).map (fun c => c.id)).Nodup)
    (hlev : ∀ n ∈ opNodes ops, 1 ≤ n.fractal_level) :
    (runOps (FractalStorage.emptyAt t0) ops).stats.total_nodes =
      ((opNodes ops).filter (fun n => n.fractal_level == 1)).length ∧
    (runOps (FractalStorage.emptyAt t0) ops).stats.total_contributions =
      (opContribs ops).length ∧
    (FractalStorage.update_stats (runOps (FractalStorage.emptyAt t0) ops) tu).stats.total_nodes =
      (runOps (FractalStorage.emptyAt t0) ops).stats.total_nodes ∧
    (FractalStorage.update_stats (runOps (FractalStorage.emptyAt t0) ops) tu).stats.total_subnodes =
      (runOps (FractalStorage.emptyAt t0) ops).stats.total_subnodes ∧
    (FractalStorage.update_stats (runOps (FractalStorage.emptyAt t0) ops) tu).stats.total_contributions =
      (runOps (FractalStorage.emptyAt t0) ops).stats.total_contributions := by
  rcases runOps_incremental_counters ops (FractalStorage.emptyAt t0) with ⟨h1, h2, h3⟩
  have hz1 : (FractalStorage.emptyAt t0).stats.total_nodes = 0 := rfl
  have hz2 : (FractalStorage.emptyAt t0).stats.total_subnodes = 0 := rfl
  have hz3 : (FractalStorage.emptyAt t0).stats.total_contributions = 0 := rfl
  rw [hz1, Nat.zero_add] at h1
  rw [hz2, Nat.zero_add] at h2
  rw [hz3, Nat.zero_add] at h3
  have ht := runOps_tables ops (FractalStorage.emptyAt t0) hnodup hcdup
    (by intro n _; simp [FractalStorage.emptyAt, AssocMap.keys, AssocMap.empty])
    (by intro c _; simp [FractalStorage.emptyAt, AssocMap.keys, AssocMap.empty])
  have hvn : AssocMap.values (runOps (FractalStorage.emptyAt t0) ops).nodes =
      opNodes ops := by
    rw [ht.1]
    simp only [AssocMap.values, FractalStorage.emptyAt, AssocMap.empty,
      List.nil_append, List.map_map]
    exact List.map_id' (opNodes ops)
  have hvc : AssocMap.values (runOps (FractalStorage.emptyAt t0) ops).contributions =
      opContribs ops := by
    rw [ht.2]
    simp only [AssocMap.values, FractalStorage.emptyAt, AssocMap.empty,
      List.nil_append, List.map_map]
    exact List.map_id' (opContribs ops)
  have hu1 : (FractalStorage.update_stats (runOps (FractalStorage.emptyAt t0) ops) tu).stats.total_nodes =
      ((AssocMap.values (runOps (FractalStorage.emptyAt t0) ops).nodes).filter
        (fun n => n.fractal_level == 1)).length := rfl
  have hu2 : (FractalStorage.update_stats (runOps (FractalStorage.emptyAt t0) ops) tu).stats.total_subnodes =
      ((AssocMap.values (runOps (FractalStorage.emptyAt t0) ops).nodes).filter
        (fun n => n.fractal_level > 1)).length := rfl
  have hu3 : (FractalStorage.update_stats (runOps (FractalStorage.emptyAt t0) ops) tu).stats.total_contributions =
      (AssocMap.values (runOps (FractalStorage.emptyAt t0) ops).contributions).length := rfl
  have hfeq : (opNodes ops).filter (fun n => n.fractal_level > 1) =
      (opNodes ops).filter (fun n => !(n.fractal_level == 1)) := by
    apply List.filter_congr
    intro n hn
    have hge := hlev n hn
    by_cases h : n.fractal_level = 1
    · rw [h]
      rfl
    · have hgt : 1 < n.fractal_level := by omega
      simp [h, hgt]
  refine ⟨h1, h3, ?_, ?_, ?_⟩
  · rw [hu1, hvn, h1]
  · rw [hu2, hvn, hfeq, h2]
  · rw [hu3, hvc, h3]

/-- A contribution appended in the C5 witness scenario. -/
def sampleContribution : Contribution :=
  { id := "c1", node_id := "a", user_id := "u1", content := "hello",
    resonance := 0.7, timestamp := 2, fractal_context := none,
    metadata := AssocMap.empty }

/-- The concrete write sequence of the C5 witness: two nodes (one
level-1, one level-2) and one contribution, all ids distinct. -/
def opsC5 : List StoreOp :=
  [StoreOp.putNode dupNode 0,
   StoreOp.putNode { dupNode with id := "b", fractal_level := 2 } 1,
   StoreOp.putContribution sampleContribution 2]

theorem C5_stats_agreement_witness :
    (runOps (FractalStorage.emptyAt 0) opsC5).stats.total_nodes =
      ((opNodes opsC5).filter (fun n => n.fractal_level == 1)).length ∧
    (runOps (FractalStorage.emptyAt 0) opsC5).stats.total_contributions =
      (opContribs opsC5).length ∧
    (FractalStorage.update_stats (runOps (FractalStorage.emptyAt 0) opsC5) 3).stats.total_nodes =
      (runOps (FractalStorage.emptyAt 0) opsC5).stats.total_nodes :=
  have h := C5_stats_agreement opsC5 0 3 (by decide) (by decide) (by decide)
  ⟨h.1, h.2.1, h.2.2.1⟩

/-! ## C6 — content hashes -/

theorem find_some_of_mem {α : Type} (p : α → Bool) {l : List α} {x : α}
    (hx : x ∈ l) (hpx : p x = true) :
    ∃ y, l.find? p = some y ∧ y ∈ l ∧ p y = true := by
  induction l with
  | nil => cases hx
  | cons a l ih =>
      by_cases hpa : p a = true
      · exact ⟨a, by simp [List.find?, hpa], List.mem_cons_self a l, hpa⟩
      · rcases List.mem_cons.mp hx with h | hx2
        · exact absurd (h ▸ hpx) hpa
        · rcases ih hx2 with ⟨y, hy1, hy2, hy3⟩
          refine ⟨y, ?_, List.mem_cons_of_mem a hy2, hy3⟩
          simpa [List.find?, hpa] using hy1

/-- C6: `store_contribution` returns a receipt whose `content_hash` is
the lowercase-hex SHA-256 digest of the UTF-8 bytes of the content,
computed at call time; the store state keeps only the contribution
itself (keyed by its id — the hash is not persisted); hashing is
deterministic, so byte-identical contents share one hash; and — under
the no-collision hypothesis that no stored content collides with
`c.content` under SHA-256 — `get_contribution` on the receipt's hash
returns a contribution whose content equals `c.content`. -/
theorem C6_contribution_hash (st : FractalStorage) (c : Contribution) (now : Nat)
    (hnocoll : ∀ c' ∈ AssocMap.values
        (FractalStorage.store_contribution st c now).1.contributions,
      FractalStorage.generate_content_hash c'.content =
        FractalStorage.generate_content_hash c.content → c'.content = c.content) :
    (FractalStorage.store_contribution st c now).2.content_hash =
      hexEncode (sha256 (utf8Bytes c.content)) ∧
    (FractalStorage.store_contribution st c now).1.contributions =
      AssocMap.insert st.contributions c.id c ∧
    (∀ c1 c2 : Contribution, c1.content = c2.content →
      FractalStorage.generate_content_hash c1.content =
        FractalStorage.generate_content_hash c2.content) ∧
    (∃ c', FractalStorage.get_contribution
        (FractalStorage.store_contribution st c now).1
        (FractalStorage.store_contribution st c now).2.content_hash = some c' ∧
      c'.content = c.content) := by
  refine ⟨rfl, rfl, fun c1 c2 h => by rw [h], ?_⟩
  have hmem : c ∈ AssocMap.values
      (FractalStorage.store_contribution st c now).1.contributions :=
    AssocMap.mem_values_insert st.contributions c.id c
  have hpc : (fun d => FractalStorage.generate_content_hash d.content ==
      (FractalStorage.store_contribution st c now).2.content_hash) c = true := by
    simp [FractalStorage.store_contribution]
  rcases find_some_of_mem
      (fun d => FractalStorage.generate_content_hash d.content ==
        (FractalStorage.store_contribution st c now).2.content_hash)
      hmem hpc with ⟨y, hy1, hy2, hy3⟩
  exact ⟨y, hy1, hnocoll y hy2 (eq_of_beq hy3)⟩

theorem C6_contribution_hash_witness :
    (FractalStorage.store_contribution (FractalStorage.emptyAt 0)
        sampleContribution 2).2.content_hash =
      hexEncode (sha256 (utf8Bytes "hello")) ∧
    (∃ c', FractalStorage.get_contribution
        (FractalStorage.store_contribution (FractalStorage.emptyAt 0)
          sampleContribution 2).1
        (FractalStorage.store_contribution (FractalStorage.emptyAt 0)
          sampleContribution 2).2.content_hash = some c' ∧
      c'.content = sampleContribution.content) :=
  have h := C6_contribution_hash (FractalStorage.emptyAt 0) sampleContribution 2
    (by
      intro c' hc' hh
      have he : c' = sampleContribution := by
        simpa [FractalStorage.store_contribution, FractalStorage.emptyAt,
          AssocMap.insert, AssocMap.values, AssocMap.empty] using hc'
      rw [he])
  ⟨h.1, h.2.2.2⟩

/-! ## C7 — append-only ledger -/

def contribX : Contribution :=
  { id := "dup", node_id := "n", user_id := "u", content := "x",
    resonance := 0.5, timestamp := 0, fractal_context := none,
    metadata := AssocMap.empty }

def contribY : Contribution := { contribX with content := "y", timestamp := 1 }

/-- C7 counterexample: `store_contribution` inserts by `contribution.id`,
so appending a second contribution with an already-used id replaces the
first — the previously stored contribution is gone from the ledger,
against "no store operation ever mutates or deletes an existing
contribution after creation". -/
theorem C7_append_only_counterexample :
    ((AssocMap.lookup ((FractalStorage.store_contribution
        (FractalStorage.emptyAt 0) contribX 0).1).contributions "dup").map
        (fun c => c.content) = some "x") ∧
    ((AssocMap.lookup ((FractalStorage.store_contribution
        (FractalStorage.store_contribution (FractalStorage.emptyAt 0) contribX 0).1
        contribY 1).1).contributions "dup").map
        (fun c => c.content) = some "y") ∧
    (∀ c ∈ AssocMap.values ((FractalStorage.store_contribution
        (FractalStorage.store_contribution (FractalStorage.emptyAt 0) contribX 0).1
        contribY 1).1).contributions, c.content ≠ "x") :=
  ⟨by decide, by decide, by decide⟩

/-- C7 (amended): after `append(c)`, `getByNode(c.node_id)` and
`getByUser(c.user_id)` both include `c`; and provided `c.id` differs
from a stored entry's key (ids are UUID-generated in the prototype, so
fresh in intended use), that previously stored contribution is still
present unchanged.  Appending with an existing id instead replaces that
entry; the other store operations never touch the ledger. -/
theorem C7_append_only (st : FractalStorage) (c : Contribution) (now : Nat) :
    c ∈ (FractalStorage.get_node_contributions
        (FractalStorage.store_contribution st c now).1 c.node_id).contributions ∧
    c ∈ (FractalStorage.get_user_contributions
        (FractalStorage.store_contribution st c now).1 c.user_id).contributions ∧
    (∀ (k : String) (c' : Contribution),
      AssocMap.lookup st.contributions k = some c' → k ≠ c.id →
      AssocMap.lookup
        (FractalStorage.store_contribution st c now).1.contributions k = some c') ∧
    (∀ (n : FractalNode) (t : Nat),
      (FractalStorage.store_node st n t).contributions = st.contributions) ∧
    (∀ i : String, (FractalStorage.delete_node st i).contributions = st.contributions) := by
  refine ⟨?_, ?_, ?_, fun n t => rfl, fun i => rfl⟩
  · apply List.mem_filter.mpr
    exact ⟨AssocMap.mem_values_insert st.contributions c.id c, by simp⟩
  · apply List.mem_filter.mpr
    exact ⟨AssocMap.mem_values_insert st.contributions c.id c, by simp⟩
  · intro k c' hl hne
    have e : (FractalStorage.store_contribution st c now).1.contributions =
        AssocMap.insert st.contributions c.id c := rfl
    rw [e, AssocMap.lookup_insert, if_neg hne]
    exact hl

/-- A second contribution with a fresh id, for the C7 witness. -/
def contribE : Contribution := { contribX with id := "e", content := "z" }

theorem C7_append_only_witness :
    contribE ∈ (FractalStorage.get_node_contributions
        (FractalStorage.store_contribution
          (FractalStorage.store_contribution (FractalStorage.emptyAt 0) contribX 0).1
          contribE 1).1 contribE.node_id).contributions ∧
    AssocMap.lookup (FractalStorage.store_contribution
        (FractalStorage.store_contribution (FractalStorage.emptyAt 0) contribX 0).1
        contribE 1).1.contributions "dup" = some contribX :=
  have h := C7_append_only
    (FractalStorage.store_contribution (FractalStorage.emptyAt 0) contribX 0).1
    contribE 1
  ⟨h.1, h.2.2.1 "dup" contribX rfl (by decide)⟩

/-! ## C8 — put/get roundtrip -/

/-- C8: after `store_node(n)`, `get_node(n.id)` returns exactly the
stored node, and keeps doing so across store operations on other ids:
another node's insert, a delete of another id, any contribution append,
and any expansion (expansion never writes the node table). -/
theorem C8_put_get_roundtrip (st : FractalStorage) (n : FractalNode) (now : Nat) :
    FractalStorage.get_node (FractalStorage.store_node st n now) n.id = some n ∧
    (∀ (m : FractalNode) (t : Nat), m.id ≠ n.id →
      FractalStorage.get_node
        (FractalStorage.store_node (FractalStorage.store_node st n now) m t)
        n.id = some n) ∧
    (∀ i : String, i ≠ n.id →
      FractalStorage.get_node
        (FractalStorage.delete_node (FractalStorage.store_node st n now) i)
        n.id = some n) ∧
    (∀ (c : Contribution) (t : Nat),
      FractalStorage.get_node
        ((FractalStorage.store_contribution (FractalStorage.store_node st n now) c t).1)
        n.id = some n) ∧
    (∀ (m : FractalNode) (t : Nat),
      FractalStorage.get_node
        ((FractalStorage.expand_node_fractally (FractalStorage.store_node st n now) m t).1)
        n.id = some n) := by
  have hbase : FractalStorage.get_node (FractalStorage.store_node st n now) n.id =
      some n := by
    show AssocMap.lookup (AssocMap.insert st.nodes n.id n) n.id = some n
    rw [AssocMap.lookup_insert, if_pos rfl]
  refine ⟨hbase, ?_, ?_, fun c t => hbase, ?_⟩
  · intro m t hm
    show AssocMap.lookup
        (AssocMap.insert (FractalStorage.store_node st n now).nodes m.id m) n.id = some n
    rw [AssocMap.lookup_insert, if_neg (fun hh => hm hh.symm)]
    exact hbase
  · intro i hi
    show AssocMap.lookup
        (AssocMap.erase (FractalStorage.store_node st n now).nodes i) n.id = some n
    rw [AssocMap.lookup_erase _ _ _ (fun hh => hi hh.symm)]
    exact hbase
  · intro m t
    show AssocMap.lookup
        (FractalStorage.expand_node_fractally (FractalStorage.store_node st n now) m t).1.nodes
        n.id = some n
    rw [expand_nodes_eq]
    exact hbase

theorem C8_put_get_roundtrip_witness :
    FractalStorage.get_node
        (FractalStorage.store_node (FractalStorage.emptyAt 0) voidNode 0)
        "codex:Void" = some voidNode ∧
    FractalStorage.get_node
        (FractalStorage.store_node
          (FractalStorage.store_node (FractalStorage.emptyAt 0) voidNode 0)
          patternNode 1)
        "codex:Void" = some voidNode ∧
    FractalStorage.get_node
        (FractalStorage.delete_node
          (FractalStorage.store_node (FractalStorage.emptyAt 0) voidNode 0)
          "codex:Pattern")
        "codex:Void" = some voidNode :=
  have h := C8_put_get_roundtrip (FractalStorage.emptyAt 0) voidNode 0
  ⟨h.1, h.2.1 patternNode 1 (by decide), h.2.2.1 "codex:Pattern" (by decide)⟩

/-! ## C9 — context-family grouping of hybrid contexts -/

/-- A node whose only context is a hybrid with sub-values from two
families. -/
def hybridNode : FractalNode :=
  { voidNode with
    id := "codex:HybridCarrier",
    contexts := [ContextType.Hybrid [.Scientific .Empirical, .Water .Phase]] }

/-- C9 counterexample: `group_nodes_by_context` sends a hybrid context
to the `"hybrid"` bucket only — a node whose only context is a hybrid
(with sub-values from two families) appears in no family bucket of the
grouping, contradicting the claimed replication into every family
bucket. -/
theorem C9_grouping_counterexample :
    AssocMap.lookup (group_nodes_by_context [hybridNode]) "scientific" = none ∧
    AssocMap.lookup (group_nodes_by_context [hybridNode]) "symbolic" = none ∧
    AssocMap.lookup (group_nodes_by_context [hybridNode]) "water" = none ∧
    ((AssocMap.lookup (group_nodes_by_context [hybridNode]) "hybrid").getD []).length = 1 :=
  ⟨rfl, rfl, rfl, rfl⟩

theorem mem_bucket_pushEntry {K V : Type} [DecidableEq K]
    (m : AssocMap K (List V)) (k k' : K) (v x : V)
    (h : x ∈ (AssocMap.lookup m k).getD []) :
    x ∈ (AssocMap.lookup (AssocMap.pushEntry m k' v) k).getD [] := by
  rw [AssocMap.lookup_pushEntry]
  by_cases hk : k = k'
  · subst hk
    rw [if_pos rfl, Option.getD_some]
    exact List.mem_append_left _ h
  · rw [if_neg hk]
    exact h

theorem mem_bucket_pushEntry_self {K V : Type} [DecidableEq K]
    (m : AssocMap K (List V)) (k : K) (v : V) :
    v ∈ (AssocMap.lookup (AssocMap.pushEntry m k v) k).getD [] := by
  rw [AssocMap.lookup_pushEntry, if_pos rfl, Option.getD_some]
  exact List.mem_append_right _ (List.mem_singleton.mpr rfl)

theorem mem_bucket_foldl_contexts (node : FractalNode) (ctxs : List ContextType)
    (m : AssocMap String (List FractalNode)) (k : String) (x : FractalNode)
    (h : x ∈ (AssocMap.lookup m k).getD []) :
    x ∈ (AssocMap.lookup (ctxs.foldl (groupPushContext node) m) k).getD [] := by
  induction ctxs generalizing m with
  | nil => exact h
  | cons cx rest ih =>
      exact ih _ (mem_bucket_pushEntry _ _ _ _ _ h)

theorem mem_hybrid_bucket_fold (node : FractalNode) (ctxs : List ContextType)
    (m : AssocMap String (List FractalNode)) (cs : List ContextType)
    (h : ContextType.Hybrid cs ∈ ctxs) :
    node ∈ (AssocMap.lookup (ctxs.foldl (groupPushContext node) m) "hybrid").getD [] := by
  induction ctxs generalizing m with
  | nil => cases h
  | cons cx rest ih =>
      simp only [List.foldl_cons]
      rcases List.mem_cons.mp h with he | hm
      · apply mem_bucket_foldl_contexts node rest (groupPushContext node m cx)
        rw [← he]
        exact mem_bucket_pushEntry_self m "hybrid" node
      · exact ih _ hm

theorem mem_bucket_foldl_nodes (nodes : List FractalNode)
    (m : AssocMap String (List FractalNode)) (k : String) (x : FractalNode)
    (h : x ∈ (AssocMap.lookup m k).getD []) :
    x ∈ (AssocMap.lookup
      (nodes.foldl (fun g nd => nd.contexts.foldl (groupPushContext nd) g) m) k).getD [] := by
  induction nodes generalizing m with
  | nil => exact h
  | cons nd rest ih =>
      exact ih _ (mem_bucket_foldl_contexts nd nd.contexts m k x h)

theorem mem_hybrid_bucket_nodes_fold (nodes : List FractalNode)
    (m : AssocMap String (List FractalNode)) (node : FractalNode)
    (cs : List ContextType) (hmem : node ∈ nodes)
    (hctx : ContextType.Hybrid cs ∈ node.contexts) :
    node ∈ (AssocMap.lookup
      (nodes.foldl (fun g nd => nd.contexts.foldl (groupPushContext nd) g) m)
      "hybrid").getD [] := by
  induction nodes generalizing m with
  | nil => cases hmem
  | cons nd rest ih =>
      simp only [List.foldl_cons]
      rcases List.mem_cons.mp hmem with he | hm
      · subst he
        exact mem_bucket_foldl_nodes rest _ "hybrid" node
          (mem_hybrid_bucket_fold node node.contexts m cs hctx)
      · exact ih _ hm

theorem groupStep_mono (g : List ContextType × List ContextType × List ContextType)
    (c x : ContextType) :
    (x ∈ g.1 → x ∈ (FractalStorage.groupStep g c).1) ∧
    (x ∈ g.2.1 → x ∈ (FractalStorage.groupStep g c).2.1) ∧
    (x ∈ g.2.2 → x ∈ (FractalStorage.groupStep g c).2.2) := by
  cases c <;>
    refine ⟨fun h => ?_, fun h => ?_, fun h => ?_⟩ <;>
    simp only [FractalStorage.groupStep] <;>
    first
      | exact List.mem_append_left _ h
      | exact h

theorem groupStep_foldl_mono (ctxs : List ContextType)
    (g : List ContextType × List ContextType × List ContextType) (x : ContextType) :
    (x ∈ g.1 → x ∈ (ctxs.foldl FractalStorage.groupStep g).1) ∧
    (x ∈ g.2.1 → x ∈ (ctxs.foldl FractalStorage.groupStep g).2.1) ∧
    (x ∈ g.2.2 → x ∈ (ctxs.foldl FractalStorage.groupStep g).2.2) := by
  induction ctxs generalizing g with
  | nil => exact ⟨id, id, id⟩
  | cons cx rest ih =>
      simp only [List.foldl_cons]
      refine ⟨fun h => ?_, fun h => ?_, fun h => ?_⟩
      · exact (ih (FractalStorage.groupStep g cx)).1 ((groupStep_mono g cx x).1 h)
      · exact (ih (FractalStorage.groupStep g cx)).2.1 ((groupStep_mono g cx x).2.1 h)
      · exact (ih (FractalStorage.groupStep g cx)).2.2 ((groupStep_mono g cx x).2.2 h)

theorem groupStep_foldl_hybrid (ctxs : List ContextType)
    (g : List ContextType × List ContextType × List ContextType)
    (cs : List ContextType) (h : ContextType.Hybrid cs ∈ ctxs) :
    ContextType.Hybrid cs ∈ (ctxs.foldl FractalStorage.groupStep g).1 ∧
    ContextType.Hybrid cs ∈ (ctxs.foldl FractalStorage.groupStep g).2.1 ∧
    ContextType.Hybrid cs ∈ (ctxs.foldl FractalStorage.groupStep g).2.2 := by
  induction ctxs generalizing g with
  | nil => cases h
  | cons cx rest ih =>
      simp only [List.foldl_cons]
      rcases List.mem_cons.mp h with he | hm
      · have hstep : ContextType.Hybrid cs ∈ (FractalStorage.groupStep g cx).1 ∧
            ContextType.Hybrid cs ∈ (FractalStorage.groupStep g cx).2.1 ∧
            ContextType.Hybrid cs ∈ (FractalStorage.groupStep g cx).2.2 := by
          rw [← he]
          refine ⟨?_, ?_, ?_⟩ <;>
            simp [FractalStorage.groupStep]
        refine ⟨?_, ?_, ?_⟩
        · exact (groupStep_foldl_mono rest (FractalStorage.groupStep g cx) _).1 hstep.1
        · exact (groupStep_foldl_mono rest (FractalStorage.groupStep g cx) _).2.1 hstep.2.1
        · exact (groupStep_foldl_mono rest (FractalStorage.groupStep g cx) _).2.2 hstep.2.2
      · exact ih _ hm

/-- C9 (amended): `group_nodes_by_context` classifies a hybrid context
into the `"hybrid"` bucket (one family per context, no replication) — a
node carrying a hybrid context appears in the hybrid bucket of the
grouping, not in every family bucket; the claimed one-to-many fan-out
exists in `get_fractal_expansion`, whose per-node grouping pushes a
hybrid context into all three of its scientific / symbolic / water
groups. -/
theorem C9_hybrid_grouping (nodes : List FractalNode) (node : FractalNode)
    (cs : List ContextType) (hmem : node ∈ nodes)
    (hctx : ContextType.Hybrid cs ∈ node.contexts) :
    node ∈ (AssocMap.lookup (group_nodes_by_context nodes) "hybrid").getD [] ∧
    (∀ (st : FractalStorage) (node_id : String) (n : FractalNode),
      AssocMap.lookup st.nodes node_id = some n → n.fractal_level = 1 →
      ContextType.Hybrid cs ∈ n.contexts →
      ∃ r, FractalStorage.get_fractal_expansion st node_id = Except.ok r ∧
        ContextType.Hybrid cs ∈ r.scientific ∧
        ContextType.Hybrid cs ∈ r.symbolic ∧
        ContextType.Hybrid cs ∈ r.water) := by
  constructor
  · exact mem_hybrid_bucket_nodes_fold nodes AssocMap.empty node cs hmem hctx
  · intro st node_id n hlook hlev hc
    unfold FractalStorage.get_fractal_expansion
    rw [hlook]
    simp only [hlev, ne_eq, not_true_eq_false, if_false, ite_false]
    have hg := groupStep_foldl_hybrid n.contexts ([], [], []) cs hc
    exact ⟨_, rfl, hg.1, hg.2.1, hg.2.2⟩

theorem C9_hybrid_grouping_witness :
    hybridNode ∈
      (AssocMap.lookup (group_nodes_by_context [hybridNode]) "hybrid").getD [] ∧
    (∃ r, FractalStorage.get_fractal_expansion
        (FractalStorage.store_node (FractalStorage.emptyAt 0) hybridNode 0)
        "codex:HybridCarrier" = Except.ok r ∧
      ContextType.Hybrid [.Scientific .Empirical, .Water .Phase] ∈ r.scientific ∧
      ContextType.Hybrid [.Scientific .Empirical, .Water .Phase] ∈ r.symbolic ∧
      ContextType.Hybrid [.Scientific .Empirical, .Water .Phase] ∈ r.water) :=
  have hctx : ContextType.Hybrid [.Scientific .Empirical, .Water .Phase] ∈
      hybridNode.contexts :=
    show ContextType.Hybrid [.Scientific .Empirical, .Water .Phase] ∈
        [ContextType.Hybrid [.Scientific .Empirical, .Water .Phase]] from
      List.mem_singleton.mpr rfl
  have hmem : hybridNode ∈ [hybridNode] := List.mem_singleton.mpr rfl
  have h := C9_hybrid_grouping [hybridNode] hybridNode
    [.Scientific .Empirical, .Water .Phase] hmem hctx
  ⟨h.1, h.2 (FractalStorage.store_node (FractalStorage.emptyAt 0) hybridNode 0)
      "codex:HybridCarrier" hybridNode rfl rfl hctx⟩

/-! ## C10 — `transform` rejects unknown states; `Wave` is unreachable -/

/-- C10: for any state string outside the seven accepted names,
`transform` returns `Err("Unknown state: ...")` and leaves the node —
in particular `water_state` and `updated_at` — unchanged; and since
`"wave"` is not among the seven (although `Wave` is the eighth
`FlowState` value), `transform` can never produce the `Wave` state on a
node that is not already in it.  The witness instantiates the rejected
string at `"wave"`. -/
theorem C10_transform_rejects_unknown (n : FractalNode) (s : String) (now : Nat)
    (h : s ∉ ["solid", "liquid", "gas", "plasma", "colloidal", "crystalline", "living"]) :
    (FractalNode.transform n s now).2 = Except.error ("Unknown state: " ++ s) ∧
    (FractalNode.transform n s now).1 = n ∧
    (∀ (s' : String) (t : Nat),
      ((FractalNode.transform n s' t).1).water_state = FlowState.Wave →
      n.water_state = FlowState.Wave) := by
  simp only [List.mem_cons, List.not_mem_nil, or_false, not_or] at h
  obtain ⟨h1, h2, h3, h4, h5, h6, h7⟩ := h
  have hp : parse_flow_state s = none := by
    simp [parse_flow_state, h1, h2, h3, h4, h5, h6, h7]
  refine ⟨?_, ?_, ?_⟩
  · simp [FractalNode.transform, hp]
  · simp [FractalNode.transform, hp]
  · intro s' t hws
    rcases hq : parse_flow_state s' with _ | fs
    · simpa [FractalNode.transform, hq] using hws
    · exfalso
      have hfs : fs = FlowState.Wave := by
        simpa [FractalNode.transform, hq] using hws
      subst hfs
      revert hq
      unfold parse_flow_state
      split_ifs <;> simp

theorem C10_transform_rejects_unknown_witness :
    (FractalNode.transform voidNode "wave" 5).2 =
      Except.error ("Unknown state: " ++ "wave") ∧
    (FractalNode.transform voidNode "wave" 5).1 = voidNode :=
  have h := C10_transform_rejects_unknown voidNode "wave" 5 (by decide)
  ⟨h.1, h.2.1⟩
